import Mathlib

/-!
Verification of the Servo2040 multi-servo controller
(servo2040_controller.cpp and its LED-enhanced variant).

The C sources are embedded shallowly: bytes are natural numbers
(ASCII codes), lines are lists of bytes, the float pulse computation is
modelled over the exact rationals, and the pulse sink, diagnostics and
array accesses are recorded as explicit traces.
-/

namespace Servo2040

/-- NUM_SERVOS from the source: the Servo2040 supports up to 18 servos. -/
def NUM_SERVOS : Nat := 18

/-- MIN_ANGLE from the source: minimum servo angle in degrees. -/
def MIN_ANGLE : Int := -140

/-- MAX_ANGLE from the source: maximum servo angle in degrees. -/
def MAX_ANGLE : Int := 140

/-- Bytes of a string literal, for readable statements about concrete input. -/
def str (s : String) : List Nat := s.toList.map Char.toNat

/-! ## PositionMapper

The source computes, for a validated position,
float pulse_us = 1500.0f + (position * 500.0f / 140.0f);
We model the float expression over the exact rationals. -/

/-- The angle-to-pulse-width mapping from handleCommands, over exact rationals. -/
def pulse_us (position : Int) : ℚ := 1500 + (position : ℚ) * 500 / 140

/-! ## CommandParser primitives

handleCommands tokenizes a line with strtok(cmd, ";") (which skips empty
tokens), finds the first comma of each token with strchr, and converts
both halves with atoi. -/

/-- Leading digit run of atoi: accumulate base-10 digits, stop at the first
non-digit (48..57 are the codes of the digits). -/
def atoiNat : List Nat → Nat → Nat
  | [], acc => acc
  | c :: rest, acc =>
    if 48 ≤ c ∧ c ≤ 57 then atoiNat rest (acc * 10 + (c - 48)) else acc

/-- C isspace on a byte: space (32) or one of HT, LF, VT, FF, CR (9..13). -/
def isSpaceByte (c : Nat) : Bool := c = 32 ∨ (9 ≤ c ∧ c ≤ 13)

/-- C atoi on a byte string: skip whitespace, optional sign (45 is the minus
sign, 43 the plus sign), then a best-effort digit run; no digits yield 0. -/
def atoi (cs : List Nat) : Int :=
  match cs.dropWhile isSpaceByte with
  | 45 :: rest => - (atoiNat rest 0 : Int)
  | 43 :: rest => (atoiNat rest 0 : Int)
  | rest => (atoiNat rest 0 : Int)

/-- strchr(token, 44) followed by the in-place split: the part before the
first comma and the part after it, or none when the token has no comma. -/
def splitAtComma : List Nat → Option (List Nat × List Nat)
  | [] => none
  | c :: rest =>
    if c = 44 then some ([], rest)
    else
      match splitAtComma rest with
      | some (u, v) => some (c :: u, v)
      | none => none

/-- Raw split of a byte string on the semicolon (59), keeping empty pieces. -/
def splitSemisAux : List Nat → List Nat → List (List Nat)
  | [], acc => [acc.reverse]
  | c :: rest, acc =>
    if c = 59 then acc.reverse :: splitSemisAux rest []
    else splitSemisAux rest (c :: acc)

/-- strtok(cmd, ";") tokenization: the non-empty maximal runs between
semicolons, in encounter order (strtok never returns an empty token). -/
def tokenize (cs : List Nat) : List (List Nat) :=
  (splitSemisAux cs []).filter (fun t => t ≠ [])

/-! ## ActuatorBank state and handleCommands -/

/-- State touched by handleCommands: the currentPositions array, plus traces
of the pulse-sink calls, the rejection diagnostics, and the indices used to
access the servos / currentPositions arrays. -/
structure BankState where
  positions : List Int
  pulses : List (Int × ℚ)
  diags : List (Int × Int)
  accesses : List Int
deriving DecidableEq, Repr

/-- Process one strtok token of handleCommands: locate the first comma (a
token without one is skipped), atoi both halves, then either apply the
command (guarded array access, pulse-sink call, currentPositions update) or
print the out-of-range diagnostic, mutating nothing. -/
def applySegment (st : BankState) (seg : List Nat) : BankState :=
  match splitAtComma seg with
  | none => st
  | some (u, v) =>
    let channel := atoi u
    let position := atoi v
    if 0 ≤ channel ∧ channel < (NUM_SERVOS : Int) ∧
        MIN_ANGLE ≤ position ∧ position ≤ MAX_ANGLE then
      { st with
        positions := st.positions.set channel.toNat position,
        pulses := st.pulses ++ [(channel, pulse_us position)],
        accesses := st.accesses ++ [channel] }
    else
      { st with diags := st.diags ++ [(channel, position)] }

/-- handleCommands on one complete line: tokenize on semicolons and process
every token in encounter order. -/
def handleCommands (st : BankState) (line : List Nat) : BankState :=
  (tokenize line).foldl applySegment st

/-- The batch of accepted (channel, angle) pairs a line yields, in encounter
order: tokens without a comma and out-of-range tokens contribute nothing. -/
def parseBatch (cs : List Nat) : List (Int × Int) :=
  (tokenize cs).filterMap fun seg =>
    match splitAtComma seg with
    | none => none
    | some (u, v) =>
      let c := atoi u
      let a := atoi v
      if 0 ≤ c ∧ c < (NUM_SERVOS : Int) ∧ MIN_ANGLE ≤ a ∧ a ≤ MAX_ANGLE
      then some (c, a) else none

/-! ## LineAssembler (readSerialLine) -/

/-- One byte fed to readSerialLine's static buffer: CR (13) or LF (10) with a
non-empty buffer emits the line and resets the cursor; CR/LF on an empty
buffer is a no-op; a printable byte (32..126) is appended while the cursor is
below 255; anything else is discarded. -/
def pushByte (buf : List Nat) (c : Nat) : List Nat × Option (List Nat) :=
  if c = 10 ∨ c = 13 then
    if buf ≠ [] then ([], some buf) else (buf, none)
  else if 32 ≤ c ∧ c ≤ 126 ∧ buf.length < 255 then
    (buf ++ [c], none)
  else
    (buf, none)

/-- readSerialLine: pull bytes from the non-blocking source until it reports
none available (end of the input list) or a complete line is assembled;
returns the remaining input, the buffer state, and the line if one completed. -/
def readSerialLine : List Nat → List Nat → List Nat × List Nat × Option (List Nat)
  | [], buf => ([], buf, none)
  | c :: rest, buf =>
    match pushByte buf c with
    | (buf2, some line) => (rest, buf2, some line)
    | (buf2, none) => readSerialLine rest buf2

/-! ## StatusIndicator (command LED flash) -/

/-- The command-LED flash state of the LED-enhanced variant:
command_led_active and command_led_off_time (milliseconds). -/
structure LedState where
  active : Bool
  offTime : Int
deriving DecidableEq, Repr

/-- Expiry check of the main loop: if the command LED is active and
absolute_time_diff_us(command_led_off_time, now) > 0, clear it. -/
def tickLed (now : Int) (st : LedState) : LedState :=
  if st.active = true ∧ now - st.offTime > 0 then
    { active := false, offTime := st.offTime }
  else st

/-! ## Scheduler (main loop of the LED-enhanced variant) -/

/-- Combined mutable state the main loop threads through an iteration. -/
structure SysState where
  bank : BankState
  led : LedState
deriving DecidableEq, Repr

/-- What the main loop does with one completed line: handleCommands (which
flashes the command LED first, unconditionally), then
command_led_off_time = make_timeout_time_ms(150) and command_led_active = true. -/
def processLine (now : Int) (sys : SysState) (line : List Nat) : SysState :=
  { bank := handleCommands sys.bank line,
    led := { active := true, offTime := now + 150 } }

/-- Result of the bounded drain loop inside one main-loop iteration. -/
structure DrainOut where
  input : List Nat
  buf : List Nat
  sys : SysState
  had : Bool
  count : Nat
deriving DecidableEq, Repr

/-- The for (i = 0; i < 100; i++) drain loop: attempt a line, process it and
set had_input on success, break on none; count is the number of lines
processed by this call. -/
def drainLoop : Nat → Int → List Nat → List Nat → SysState → Bool → DrainOut
  | 0, _, input, buf, sys, had =>
    { input := input, buf := buf, sys := sys, had := had, count := 0 }
  | fuel + 1, now, input, buf, sys, had =>
    match readSerialLine input buf with
    | (input2, buf2, some line) =>
      let out := drainLoop fuel now input2 buf2 (processLine now sys line) true
      { out with count := out.count + 1 }
    | (input2, buf2, none) =>
      { input := input2, buf := buf2, sys := sys, had := had, count := 0 }

/-- Result of one outer iteration of the main while loop. -/
structure IterOut where
  animRan : Bool
  input : List Nat
  buf : List Nat
  sys : SysState
  processed : Nat
  slept : Bool
deriving DecidableEq, Repr

/-- One outer iteration of main: poll the user button (a press runs the
blocking welcome animation, and the loop body then simply falls through),
run the command-LED expiry check, drain up to 100 lines, and sleep for
1 ms only when no line was processed. -/
def mainIteration (trigger : Bool) (now : Int) (input : List Nat)
    (buf : List Nat) (sys : SysState) : IterOut :=
  let animRan := trigger
  let sys1 : SysState := { sys with led := tickLed now sys.led }
  let out := drainLoop 100 now input buf sys1 false
  { animRan := animRan, input := out.input, buf := out.buf, sys := out.sys,
    processed := out.count, slept := !out.had }

/-! ## setup -/

/-- Events observable at the pulse sink during setup. -/
inductive SinkEvent where
  | configure (s : Nat) (lo hi : Int)
  | enable (s : Nat)
  | setPulse (s : Nat) (us : ℚ)
deriving DecidableEq, Repr

/-- Modelled from the spec: the vendor Servo::enable call (pimoroni driver
code, not part of this repository) drives the output to its mid-travel
position — the source comments "Enable all servos (this puts them at the
middle)" and the spec states the pulse sink is called with the neutral pulse
width 1500.0 for every channel exactly once — so enabling a channel issues
the enable event followed by one neutral 1500.0 us pulse. -/
def enableServo (s : Nat) : List SinkEvent :=
  [SinkEvent.enable s, SinkEvent.setPulse s 1500]

/-- First setup loop, currentPositions part: for every servo index set
currentPositions[s] = 0 (start is the prior array contents). -/
def setupPositions (start : List Int) : List Int :=
  (List.range NUM_SERVOS).foldl (fun p s => p.set s 0) start

/-- Pulse-sink events of setup: the first loop applies the custom
calibration (first_value MIN_ANGLE, last_value MAX_ANGLE) per servo, the
second loop enables every servo. -/
def setupEvents : List SinkEvent :=
  (List.range NUM_SERVOS).foldl
    (fun ev s => ev ++ [SinkEvent.configure s MIN_ANGLE MAX_ANGLE]) []
  ++ (List.range NUM_SERVOS).foldl (fun ev s => ev ++ enableServo s) []

/-- The bank state right after setup: all positions zeroed, no commands
processed yet. -/
def bank0 : BankState :=
  { positions := setupPositions (List.replicate NUM_SERVOS 0),
    pulses := [], diags := [], accesses := [] }

/-- The system state entering the main loop. -/
def sys0 : SysState :=
  { bank := bank0, led := { active := false, offTime := 0 } }

/-! ## Claim theorems -/

/-- C1: for every integer angle a with -140 <= a <= 140, the pulse-width
mapping computes exactly pulse_us(a) = 1500.0 + a * 500.0 / 140.0; in
particular pulse_us(-140) = 1000.0, pulse_us(0) = 1500.0 and
pulse_us(140) = 2000.0. -/
theorem C1_pulse_mapping (a : Int) (_h1 : -140 ≤ a) (_h2 : a ≤ 140) :
    pulse_us a = 1500 + (a : ℚ) * 500 / 140 ∧
    pulse_us (-140) = 1000 ∧ pulse_us 0 = 1500 ∧ pulse_us 140 = 2000 := by
  refine ⟨rfl, ?_, ?_, ?_⟩ <;> norm_num [pulse_us]

/-- C1 witness: the mapping property instantiated at angle 7. -/
theorem C1_pulse_mapping_witness :
    pulse_us 7 = 1500 + (7 : ℚ) * 500 / 140 ∧
    pulse_us (-140) = 1000 ∧ pulse_us 0 = 1500 ∧ pulse_us 140 = 2000 :=
  C1_pulse_mapping 7 (by norm_num) (by norm_num)

/-- C3: the parser splits the line on the semicolon into ordered segments,
skips empty segments and segments containing no comma, and accepts the rest
in encounter order; parsing "0,10;1,-20;" yields exactly [(0,10), (1,-20)]
with no third entry for the trailing empty segment. -/
theorem C3_tokenization :
    (∀ line t, t ∈ tokenize line → t ≠ []) ∧
    (∀ st seg, splitAtComma seg = none → applySegment st seg = st) ∧
    tokenize (str "0,10;1,-20;") = [str "0,10", str "1,-20"] ∧
    parseBatch (str "0,10;1,-20;") = [(0, 10), (1, -20)] := by
  refine ⟨?_, ?_, by decide, by decide⟩
  · intro line t ht
    have h : t ∈ splitSemisAux line [] ∧ ¬t = [] := by simpa [tokenize] using ht
    exact h.2
  · intro st seg h
    simp [applySegment, h]

/-- C3 witness: tokens of a concrete line are non-empty, and a concrete
comma-free token is skipped without effect. -/
theorem C3_tokenization_witness :
    str "0,10" ≠ [] ∧ applySegment bank0 (str "99") = bank0 :=
  ⟨C3_tokenization.1 (str "0,10;1,-20;") (str "0,10") (by decide),
   C3_tokenization.2.1 bank0 (str "99") (by decide)⟩

/-- C5: fed one byte, the line assembler emits the buffer and resets the
cursor on CR/LF with a non-empty buffer, ignores CR/LF on an empty buffer
(never emitting an empty line), appends a printable byte (32..126) only
below capacity 255, silently discards every other byte, and keeps the
cursor at most 255. -/
theorem C5_line_assembler (buf : List Nat) (c : Nat) (hcap : buf.length ≤ 255) :
    ((c = 10 ∨ c = 13) → buf ≠ [] → pushByte buf c = ([], some buf)) ∧
    ((c = 10 ∨ c = 13) → buf = [] → pushByte buf c = (buf, none)) ∧
    (¬(c = 10 ∨ c = 13) → 32 ≤ c → c ≤ 126 → buf.length < 255 →
      pushByte buf c = (buf ++ [c], none)) ∧
    (¬(c = 10 ∨ c = 13) → ¬(32 ≤ c ∧ c ≤ 126 ∧ buf.length < 255) →
      pushByte buf c = (buf, none)) ∧
    (∀ l, (pushByte buf c).2 = some l → l ≠ []) ∧
    (pushByte buf c).1.length ≤ 255 := by
  by_cases h1 : c = 10 ∨ c = 13
  · by_cases h2 : buf = []
    · subst h2
      refine ⟨fun _ h => absurd rfl h, fun _ _ => by simp [pushByte, h1], ?_, ?_, ?_, ?_⟩ <;>
        simp [pushByte, h1]
    · refine ⟨fun _ _ => by simp [pushByte, h1, h2], fun _ h => absurd h h2, ?_, ?_, ?_, ?_⟩
      · intro h; exact absurd h1 h
      · intro h; exact absurd h1 h
      · intro l hl
        simp [pushByte, h1, h2] at hl
        subst hl; exact h2
      · simp [pushByte, h1, h2]
  · by_cases h3 : 32 ≤ c ∧ c ≤ 126 ∧ buf.length < 255
    · refine ⟨fun h => absurd h h1, fun h => absurd h h1,
        fun _ _ _ _ => by simp [pushByte, h1, h3], fun _ h => absurd h3 h, ?_, ?_⟩
      · intro l hl
        simp [pushByte, h1, h3] at hl
      · simp only [pushByte, if_neg h1, if_pos h3, List.length_append, List.length_cons,
          List.length_nil]
        omega
    · refine ⟨fun h => absurd h h1, fun h => absurd h h1,
        fun _ ha hb hc => absurd ⟨ha, hb, hc⟩ h3, fun _ _ => by simp [pushByte, h1, h3],
        ?_, ?_⟩
      · intro l hl
        simp [pushByte, h1, h3] at hl
      · simpa [pushByte, h1, h3] using hcap

/-- C5 witness: LF after the single byte 65 emits the line [65] and resets
the cursor. -/
theorem C5_line_assembler_witness : pushByte [65] 10 = ([], some [65]) :=
  (C5_line_assembler [65] 10 (by decide)).1 (Or.inl rfl) (by decide)

/-- C2: a segment whose parsed channel is outside [0, 18) or whose parsed
angle is outside [-140, 140] is rejected with a diagnostic and mutates no
state (no position change, no pulse-sink call, no array access), while the
rest of the line is still processed; processing "5,999" leaves channel 5
unchanged, and "99,0" mutates nothing. -/
theorem C2_out_of_range (st : BankState) (seg u v : List Nat)
    (hsp : splitAtComma seg = some (u, v))
    (hinv : ¬(0 ≤ atoi u ∧ atoi u < (NUM_SERVOS : Int) ∧
      MIN_ANGLE ≤ atoi v ∧ atoi v ≤ MAX_ANGLE)) :
    ((applySegment st seg).positions = st.positions ∧
     (applySegment st seg).pulses = st.pulses ∧
     (applySegment st seg).accesses = st.accesses ∧
     (applySegment st seg).diags = st.diags ++ [(atoi u, atoi v)]) ∧
    ((handleCommands bank0 (str "5,999")).positions = bank0.positions ∧
     (handleCommands bank0 (str "5,999")).pulses = [] ∧
     (handleCommands bank0 (str "5,999")).diags = [(5, 999)]) ∧
    ((handleCommands bank0 (str "99,0")).positions = bank0.positions ∧
     (handleCommands bank0 (str "99,0")).pulses = [] ∧
     (handleCommands bank0 (str "99,0")).diags = [(99, 0)]) ∧
    ((handleCommands bank0 (str "99,0;1,20")).positions.get? 1 = some 20 ∧
     (handleCommands bank0 (str "99,0;1,20")).diags = [(99, 0)] ∧
     (handleCommands bank0 (str "99,0;1,20")).pulses = [(1, pulse_us 20)]) := by
  have h : applySegment st seg = { st with diags := st.diags ++ [(atoi u, atoi v)] } := by
    unfold applySegment
    rw [hsp]
    exact if_neg hinv
  exact ⟨⟨by rw [h], by rw [h], by rw [h], by rw [h]⟩,
    ⟨by decide, by decide, by decide⟩, ⟨by decide, by decide, by decide⟩,
    ⟨by decide, by decide, rfl⟩⟩

/-- C2 witness: the rejection property instantiated on the segment "5,999". -/
theorem C2_out_of_range_witness :
    (applySegment bank0 (str "5,999")).positions = bank0.positions ∧
    (applySegment bank0 (str "5,999")).diags =
      bank0.diags ++ [(atoi (str "5"), atoi (str "999"))] :=
  ⟨((C2_out_of_range bank0 (str "5,999") (str "5") (str "999")
      (by decide) (by decide)).1).1,
   ((C2_out_of_range bank0 (str "5,999") (str "5") (str "999")
      (by decide) (by decide)).1).2.2.2⟩

/-- C4: accepted commands of one line apply strictly in encounter order, so
two accepted segments addressing the same channel leave that channel at the
later segment's angle; after "3,50;3,-50" channel 3 holds -50 and the last
pulse sent to channel 3 is the one for -50. -/
theorem C4_last_write_wins (st : BankState) (s1 s2 u1 v1 u2 v2 : List Nat)
    (h1 : splitAtComma s1 = some (u1, v1)) (h2 : splitAtComma s2 = some (u2, v2))
    (hch : atoi u1 = atoi u2)
    (hv1 : 0 ≤ atoi u1 ∧ atoi u1 < (NUM_SERVOS : Int) ∧
      MIN_ANGLE ≤ atoi v1 ∧ atoi v1 ≤ MAX_ANGLE)
    (hv2 : 0 ≤ atoi u2 ∧ atoi u2 < (NUM_SERVOS : Int) ∧
      MIN_ANGLE ≤ atoi v2 ∧ atoi v2 ≤ MAX_ANGLE)
    (hlen : (atoi u2).toNat < st.positions.length) :
    ((applySegment (applySegment st s1) s2).positions.get? (atoi u2).toNat =
      some (atoi v2)) ∧
    (handleCommands bank0 (str "3,50;3,-50")).positions.get? 3 = some (-50) ∧
    (handleCommands bank0 (str "3,50;3,-50")).pulses =
      [(3, pulse_us 50), (3, pulse_us (-50))] := by
  refine ⟨?_, by decide, rfl⟩
  have e1 : applySegment st s1 = { st with
      positions := st.positions.set (atoi u1).toNat (atoi v1),
      pulses := st.pulses ++ [(atoi u1, pulse_us (atoi v1))],
      accesses := st.accesses ++ [atoi u1] } := by
    unfold applySegment
    rw [h1]
    exact if_pos hv1
  have e2 : ∀ st2 : BankState, applySegment st2 s2 = { st2 with
      positions := st2.positions.set (atoi u2).toNat (atoi v2),
      pulses := st2.pulses ++ [(atoi u2, pulse_us (atoi v2))],
      accesses := st2.accesses ++ [atoi u2] } := by
    intro st2
    unfold applySegment
    rw [h2]
    exact if_pos hv2
  rw [e1, e2]
  simp only [hch, List.set_set]
  exact List.get?_set_eq_of_lt _ (by simpa using hlen)

/-- C4 witness: the override property instantiated on the segments "3,50"
and "3,-50" from the initial bank state. -/
theorem C4_last_write_wins_witness :
    (applySegment (applySegment bank0 (str "3,50")) (str "3,-50")).positions.get?
      (atoi (str "3")).toNat = some (atoi (str "-50")) :=
  (C4_last_write_wins bank0 (str "3,50") (str "3,-50") (str "3") (str "50")
    (str "3") (str "-50") (by decide) (by decide) (by decide) (by decide)
    (by decide) (by decide)).1

/-- C6 counterexample: the claim says the indicator returns to Idle exactly
when now >= expiry; but on a tick at now equal to the expiry (entered at
time 0, expiry 150, tick at 150) the code keeps the command LED active,
because the main loop clears it only when
absolute_time_diff_us(off_time, now) is strictly positive. -/
theorem C6_counterexample :
    tickLed 150 { active := true, offTime := 150 } =
      { active := true, offTime := 150 } := by decide

/-- C6 amended: the status indicator enters Flashing on every completed
line, even one yielding zero valid commands, setting expiry = now + 150 ms
(a new line while already Flashing resets the expiry); on a tick it
transitions back to Idle exactly when now is strictly greater than the
expiry, and never at or before the expiry. -/
theorem C6_flash_timing (now : Int) (st : LedState) (hact : st.active = true) :
    (∀ t sys line, (processLine t sys line).led = { active := true, offTime := t + 150 }) ∧
    ((tickLed now st).active = false ↔ now > st.offTime) ∧
    (¬now > st.offTime → tickLed now st = st) := by
  refine ⟨fun _ _ _ => rfl, ?_, ?_⟩
  · constructor
    · intro h
      by_cases hgt : now - st.offTime > 0
      · omega
      · unfold tickLed at h
        rw [if_neg (fun hc => hgt hc.2)] at h
        rw [hact] at h
        exact absurd h (by decide)
    · intro hgt
      unfold tickLed
      rw [if_pos ⟨hact, by omega⟩]
  · intro hle
    unfold tickLed
    rw [if_neg (fun hc => hle (by have := hc.2; omega))]

/-- C6 witness: a tick one past the expiry clears the flash; entered at
time 0, expiry 150, the tick at 151 turns the indicator idle. -/
theorem C6_flash_timing_witness :
    (tickLed 151 { active := true, offTime := 150 }).active = false :=
  ((C6_flash_timing 151 { active := true, offTime := 150 } rfl).2.1).mpr (by decide)

/-- Helper for C7: the bounded drain loop processes at most fuel lines, and
its had_input result is the initial flag or the fact that at least one line
was processed in this call. -/
theorem drainLoop_spec (fuel : Nat) (now : Int) (input buf : List Nat)
    (sys : SysState) (had : Bool) :
    (drainLoop fuel now input buf sys had).count ≤ fuel ∧
    (drainLoop fuel now input buf sys had).had =
      (had || decide (0 < (drainLoop fuel now input buf sys had).count)) := by
  induction fuel generalizing input buf sys had with
  | zero => simp [drainLoop]
  | succ n ih =>
    rcases hr : readSerialLine input buf with ⟨input2, rest⟩
    rcases rest with ⟨buf2, lineOpt⟩
    rcases lineOpt with _ | line
    · simp [drainLoop, hr]
    · have h := ih input2 buf2 (processLine now sys line) true
      simp only [drainLoop, hr]
      refine ⟨by omega, ?_⟩
      rw [h.2]
      simp

/-- C7: each outer iteration drains at most 100 complete lines, and it
sleeps for about 1 ms at the end of the iteration if and only if zero lines
were processed in that iteration. -/
theorem C7_bounded_drain (trigger : Bool) (now : Int) (input buf : List Nat)
    (sys : SysState) :
    (mainIteration trigger now input buf sys).processed ≤ 100 ∧
    ((mainIteration trigger now input buf sys).slept = true ↔
      (mainIteration trigger now input buf sys).processed = 0) := by
  have h := drainLoop_spec 100 now input buf
    { sys with led := tickLed now sys.led } false
  refine ⟨h.1, ?_⟩
  have hb : (mainIteration trigger now input buf sys).slept =
      !(drainLoop 100 now input buf { sys with led := tickLed now sys.led } false).had :=
    rfl
  have hc : (mainIteration trigger now input buf sys).processed =
      (drainLoop 100 now input buf { sys with led := tickLed now sys.led } false).count :=
    rfl
  rw [hb, hc, h.2]
  simp

/-- Helper: a token rejected by the range guard only appends its diagnostic. -/
theorem applySegment_reject (st : BankState) (seg u v : List Nat)
    (hsp : splitAtComma seg = some (u, v))
    (hinv : ¬(0 ≤ atoi u ∧ atoi u < (NUM_SERVOS : Int) ∧
      MIN_ANGLE ≤ atoi v ∧ atoi v ≤ MAX_ANGLE)) :
    applySegment st seg = { st with diags := st.diags ++ [(atoi u, atoi v)] } := by
  unfold applySegment
  rw [hsp]
  exact if_neg hinv

/-- Helper: a token accepted by the range guard accesses the arrays at its
channel, records the pulse and commits the position. -/
theorem applySegment_accept (st : BankState) (seg u v : List Nat)
    (hsp : splitAtComma seg = some (u, v))
    (hv : 0 ≤ atoi u ∧ atoi u < (NUM_SERVOS : Int) ∧
      MIN_ANGLE ≤ atoi v ∧ atoi v ≤ MAX_ANGLE) :
    applySegment st seg = { st with
      positions := st.positions.set (atoi u).toNat (atoi v),
      pulses := st.pulses ++ [(atoi u, pulse_us (atoi v))],
      accesses := st.accesses ++ [atoi u] } := by
  unfold applySegment
  rw [hsp]
  exact if_pos hv

/-- Helper: a token without a comma is skipped without any effect. -/
theorem applySegment_nocomma (st : BankState) (seg : List Nat)
    (hsp : splitAtComma seg = none) : applySegment st seg = st := by
  unfold applySegment
  rw [hsp]

/-- Helper for C10: one token only adds in-range indices to the access trace. -/
theorem applySegment_accesses (st : BankState) (seg : List Nat) (i : Int)
    (h : i ∈ (applySegment st seg).accesses) :
    i ∈ st.accesses ∨ (0 ≤ i ∧ i < (NUM_SERVOS : Int)) := by
  rcases hsp : splitAtComma seg with _ | ⟨u, v⟩
  · rw [applySegment_nocomma st seg hsp] at h
    left; exact h
  · by_cases hv : 0 ≤ atoi u ∧ atoi u < (NUM_SERVOS : Int) ∧
        MIN_ANGLE ≤ atoi v ∧ atoi v ≤ MAX_ANGLE
    · rw [applySegment_accept st seg u v hsp hv] at h
      rcases List.mem_append.mp h with h2 | h2
      · left; exact h2
      · right
        have hiu : i = atoi u := by simpa using h2
        rw [hiu]
        exact ⟨hv.1, hv.2.1⟩
    · rw [applySegment_reject st seg u v hsp hv] at h
      left; exact h

/-- Helper for C10: processing a whole line only adds in-range indices. -/
theorem handleCommands_accesses (st : BankState) (line : List Nat) (i : Int)
    (h : i ∈ (handleCommands st line).accesses) :
    i ∈ st.accesses ∨ (0 ≤ i ∧ i < (NUM_SERVOS : Int)) := by
  unfold handleCommands at h
  generalize tokenize line = toks at h
  induction toks generalizing st with
  | nil => left; exact h
  | cons t toks ih =>
    rw [List.foldl_cons] at h
    rcases ih (applySegment st t) h with h2 | h2
    · exact applySegment_accesses st t i h2
    · right; exact h2

/-- C10: during command processing the servo and currentPositions arrays are
indexed only at channels in [0, 18) - the validation guard runs before any
array access - and the out-of-range branch performs no array access at all. -/
theorem C10_access_bounds (st : BankState) (line : List Nat) (i : Int)
    (h : i ∈ (handleCommands st line).accesses) :
    (i ∈ st.accesses ∨ (0 ≤ i ∧ i < (NUM_SERVOS : Int))) ∧
    (∀ st2 seg u v, splitAtComma seg = some (u, v) →
      ¬(0 ≤ atoi u ∧ atoi u < (NUM_SERVOS : Int) ∧
        MIN_ANGLE ≤ atoi v ∧ atoi v ≤ MAX_ANGLE) →
      (applySegment st2 seg).accesses = st2.accesses) := by
  refine ⟨handleCommands_accesses st line i h, ?_⟩
  intro st2 seg u v hsp hinv
  rw [applySegment_reject st2 seg u v hsp hinv]

/-- C10 witness: processing the line "3,50" from the initial bank state only
accesses index 3, which the theorem places in range. -/
theorem C10_access_bounds_witness :
    (3 : Int) ∈ bank0.accesses ∨ (0 ≤ (3 : Int) ∧ (3 : Int) < (NUM_SERVOS : Int)) :=
  (C10_access_bounds bank0 (str "3,50") 3 (by decide)).1

/-- Helper for C8: zeroing folds preserve the array length. -/
theorem foldl_set_zero_length (l : List Nat) (p : List Int) :
    (l.foldl (fun q s => q.set s 0) p).length = p.length := by
  induction l generalizing p with
  | nil => rfl
  | cons a l ih => rw [List.foldl_cons, ih, List.length_set]

/-- Helper for C8: a zeroing fold leaves every cell either zeroed or as it
started. -/
theorem foldl_set_zero_stable (l : List Nat) (p : List Int) (i : Nat) :
    (l.foldl (fun q s => q.set s 0) p).get? i = some 0 ∨
    (l.foldl (fun q s => q.set s 0) p).get? i = p.get? i := by
  induction l generalizing p with
  | nil => right; rfl
  | cons a l ih =>
    rw [List.foldl_cons]
    rcases ih (p.set a 0) with h | h
    · left; exact h
    · by_cases hia : i = a
      · subst hia
        by_cases hlen : i < p.length
        · left; rw [h]; exact List.get?_set_eq_of_lt _ hlen
        · right
          rw [h]
          have hnone : (p.set i 0).get? i = none :=
            List.get?_eq_none.mpr (by rw [List.length_set]; exact Nat.le_of_not_lt hlen)
          have hnone2 : p.get? i = none := List.get?_eq_none.mpr (Nat.le_of_not_lt hlen)
          rw [hnone, hnone2]
      · right
        rw [h, List.get?_set_ne _ _ (fun hh => hia hh.symm)]

/-- Helper for C8: every index visited by a zeroing fold ends at zero. -/
theorem foldl_set_zero_mem (l : List Nat) : ∀ (p : List Int) (i : Nat),
    i ∈ l → i < p.length →
    (l.foldl (fun q s => q.set s 0) p).get? i = some 0 := by
  induction l with
  | nil => intro p i hmem _; exact absurd hmem (List.not_mem_nil i)
  | cons a l ih =>
    intro p i hmem hlen
    rw [List.foldl_cons]
    by_cases h : i ∈ l
    · exact ih (p.set a 0) i h (by rwa [List.length_set])
    · have hia : i = a := by
        rcases List.mem_cons.mp hmem with h1 | h1
        · exact h1
        · exact absurd h1 h
      subst hia
      rcases foldl_set_zero_stable l (p.set i 0) i with h0 | h0
      · exact h0
      · rw [h0]
        exact List.get?_set_eq_of_lt _ hlen

/-- C8: after initialization every one of the 18 channels holds
current_angle 0, the pulse sink was configured with the full calibration
range and enabled for every channel, and (with Servo::enable modelled as
driving the output to mid-travel) the pulse sink received the neutral pulse
width 1500.0 exactly once per channel; 1500.0 is the neutral pulse of the
mapping. -/
theorem C8_setup (start : List Int) (hl : start.length = NUM_SERVOS) :
    (∀ i, i < NUM_SERVOS → (setupPositions start).get? i = some 0) ∧
    (∀ s, s < NUM_SERVOS →
      SinkEvent.configure s MIN_ANGLE MAX_ANGLE ∈ setupEvents ∧
      SinkEvent.enable s ∈ setupEvents) ∧
    (∀ s, s < NUM_SERVOS →
      (setupEvents.filter (fun e => e = SinkEvent.setPulse s 1500)).length = 1) ∧
    pulse_us 0 = 1500 := by
  refine ⟨?_, by decide, by decide, by norm_num [pulse_us]⟩
  intro i hi
  exact foldl_set_zero_mem (List.range NUM_SERVOS) start i
    (List.mem_range.mpr hi) (by rw [hl]; exact hi)

/-- C8 witness: instantiated at the zero-initialized global array. -/
theorem C8_setup_witness :
    (setupPositions (List.replicate NUM_SERVOS 0)).get? 0 = some 0 ∧
    SinkEvent.enable 17 ∈ setupEvents :=
  ⟨(C8_setup (List.replicate NUM_SERVOS 0) (by decide)).1 0 (by decide),
   ((C8_setup (List.replicate NUM_SERVOS 0) (by decide)).2.1 17 (by decide)).2⟩

/-- C9 counterexample: with the manual trigger asserted and the bytes of the
line "0,10" pending, the iteration both runs the animation and drains that
line - the loop body has no continue after the animation - so the claim
that no command lines are drained in that same iteration is false. -/
theorem C9_counterexample :
    (mainIteration true 0 (str "0,10\n") [] sys0).animRan = true ∧
    (mainIteration true 0 (str "0,10\n") [] sys0).processed = 1 :=
  ⟨rfl, by decide⟩

/-- C9 amended: in every outer iteration in which the manual trigger reads
asserted, the scheduler runs the blocking startup animation and then falls
through to the rest of the same iteration, draining pending lines exactly
as it would without the trigger (lines are withheld only while the
animation itself runs, not for the rest of the iteration). -/
theorem C9_trigger_fallthrough (now : Int) (input buf : List Nat) (sys : SysState) :
    (mainIteration true now input buf sys).animRan = true ∧
    (mainIteration true now input buf sys).processed =
      (mainIteration false now input buf sys).processed ∧
    (mainIteration true now input buf sys).sys =
      (mainIteration false now input buf sys).sys :=
  ⟨rfl, rfl, rfl⟩

end Servo2040
